import Mathlib

/-!
Verification of the `langchaingang` provider registry and model factory
(`src/langchaingang/provider.py` and `src/langchaingang/__init__.py`).

The embedding is parametric in `C`, the type of chat-model classes
(Python `type[BaseChatModel]` values), and `V`, the type of configuration
values passed as keyword arguments.  Python dictionaries are modelled as
insertion-ordered association lists with Python `dict` semantics
(assignment updates in place or appends; `pop` removes the key).
Python exceptions are modelled by the inductive `PyErr`; a fallible call
returns `Except PyErr α`.  Module-level mutable state
(`_provider_info_funcs_list`, `_provider_dict`) becomes an explicit
`RegState` threaded through every operation.
-/

namespace Langchaingang

/-- Python exceptions relevant to this code base: `ImportError` (the only
class caught by `_get_dict`), `KeyError` (raised by `dict[key]` on a missing
key), `ValueError` (raised by the `Unsupported provider` branch), and a
catch-all for any other exception a producer might raise. -/
inductive PyErr where
  | importError (msg : String)
  | keyError (key : String)
  | valueError (msg : String)
  | otherError (msg : String)
deriving DecidableEq

/-- `True` exactly for exceptions matched by `except ImportError` in
`_get_dict`. -/
def PyErr.isImport : PyErr → Bool
  | .importError _ => true
  | _ => false

/-- A Python `dict` with string keys: an insertion-ordered association
list. -/
abbrev Dict (α : Type) := List (String × α)

/-- `d[k] = v`: replace the value at the first occurrence of `k`, or append
`(k, v)` when `k` is absent (Python dicts keep the original position of an
updated key). -/
def dictInsert (d : Dict α) (k : String) (v : α) : Dict α :=
  match d with
  | [] => [(k, v)]
  | (k', v') :: rest => if k' = k then (k, v) :: rest else (k', v') :: dictInsert rest k v

/-- `d.get(k)` / `k in d`: first value stored under `k`. -/
def dictLookup (d : Dict α) (k : String) : Option α :=
  match d with
  | [] => none
  | (k', v) :: rest => if k' = k then some v else dictLookup rest k

/-- `k in d` as a Boolean. -/
def dictContains (d : Dict α) (k : String) : Bool :=
  (dictLookup d k).isSome

/-- `d.pop(k)`: drop every entry keyed `k` (a Python dict built by the code
never holds duplicate keys, so this agrees with removing the single entry). -/
def dictRemove (d : Dict α) (k : String) : Dict α :=
  match d with
  | [] => []
  | (k', v) :: rest => if k' = k then dictRemove rest k else (k', v) :: dictRemove rest k

/-- `list(d.keys())`. -/
def dictKeys (d : Dict α) : List String := d.map Prod.fst

/-- `provider.Info`: a provider descriptor.  `model_type` is `Option C`
because Python does not enforce the `type[BaseChatModel]` annotation, and
`get_chat_model` explicitly tests the looked-up class against `None`;
`some c` is an actual class, `none` is Python `None`. -/
structure Info (C : Type) where
  provider_name : String
  model_type : Option C
deriving DecidableEq

/-- A registered producer: a zero-argument function whose single invocation
either returns an `Info` or raises.  Since producers take no arguments and
the code calls each at most once per derivation, a producer is modelled by
the outcome of that call. -/
abbrev Producer (C : Type) := Except PyErr (Info C)

/-- `true` for a producer whose invocation returns normally. -/
def isOkP : Producer C → Bool
  | .ok _ => true
  | .error _ => false

/-- `true` for a producer whose invocation raises an `ImportError`. -/
def isImportP : Producer C → Bool
  | .ok _ => false
  | .error e => e.isImport

/-- `true` when invoking the producer returns an `Info` whose `model_type`
is an actual class (not Python `None`); vacuously `true` for a raising
producer. -/
def okYieldsSome : Producer C → Bool
  | .ok info => info.model_type.isSome
  | .error _ => true

/-- `true` when the producer returns normally with `provider_name = n`. -/
def yieldsName : Producer C → String → Bool
  | .ok info, n => info.provider_name = n
  | .error _, _ => false

/-- The module-level mutable state of `provider.py`:
`_provider_info_funcs_list` and `_provider_dict`. -/
structure RegState (C : Type) where
  provider_info_funcs_list : List (Producer C)
  provider_dict : Dict (Option C)

/-- A fresh registry: some registered producers, nothing derived yet. -/
def freshState (ps : List (Producer C)) : RegState C :=
  { provider_info_funcs_list := ps, provider_dict := [] }

/-- The `for provider_info_func in _provider_info_funcs_list:` loop of
`_get_dict`, acting on the (mutated-in-place) dictionary `d`.  A producer
that returns inserts `provider_name ↦ model_type`; an `ImportError` is
swallowed (`except ImportError: pass`); any other exception stops the loop
at once and propagates, leaving the insertions already made in `d`. -/
def deriveLoop : List (Producer C) → Dict (Option C) → Dict (Option C) × Option PyErr
  | [], d => (d, none)
  | p :: rest, d =>
    match p with
    | .ok info => deriveLoop rest (dictInsert d info.provider_name info.model_type)
    | .error e => if e.isImport then deriveLoop rest d else (d, some e)

/-- `provider._get_dict`: return the cached dictionary if it is non-empty
(`if _provider_dict: return _provider_dict`); otherwise run the derivation
loop over the registered producers, caching whatever it wrote into the
dictionary even when it ends in an uncaught exception. -/
def _get_dict (st : RegState C) : Except PyErr (Dict (Option C)) × RegState C :=
  match st.provider_dict with
  | [] =>
    match deriveLoop st.provider_info_funcs_list [] with
    | (d, none) => (.ok d, { st with provider_dict := d })
    | (d, some e) => (.error e, { st with provider_dict := d })
  | x :: xs => (.ok (x :: xs), st)

/-- `provider.register`: append the producer to
`_provider_info_funcs_list` and return it unchanged. -/
def register (func : Producer C) (st : RegState C) : Producer C × RegState C :=
  (func, { st with provider_info_funcs_list := st.provider_info_funcs_list ++ [func] })

/-- `provider.is_supported`: `provider_name in _get_dict()`. -/
def is_supported (st : RegState C) (provider_name : String) :
    Except PyErr Bool × RegState C :=
  match _get_dict st with
  | (.ok d, st') => (.ok (dictContains d provider_name), st')
  | (.error e, st') => (.error e, st')

/-- `provider.get_chat_model_class`: `_get_dict()[provider_name]`, raising
`KeyError(provider_name)` when the key is absent. -/
def get_chat_model_class (st : RegState C) (provider_name : String) :
    Except PyErr (Option C) × RegState C :=
  match _get_dict st with
  | (.ok d, st') =>
    match dictLookup d provider_name with
    | some v => (.ok v, st')
    | none => (.error (.keyError provider_name), st')
  | (.error e, st') => (.error e, st')

/-- `provider.get_list`: `list(_get_dict().keys())`. -/
def get_list (st : RegState C) : Except PyErr (List String) × RegState C :=
  match _get_dict st with
  | (.ok d, st') => (.ok (dictKeys d), st')
  | (.error e, st') => (.error e, st')

/-- `langchaingang.get_chat_model`: resolve the class via
`get_chat_model_class` (whose `KeyError` propagates), raise
`ValueError("Unsupported provider: ...")` if the class is `None`, apply the
bedrock `model → model_id` and vertex `model → model_name` kwarg renames,
and hand `(class, kwargs)` to the external constructor, here returned as
the result. -/
def get_chat_model (st : RegState C) (provider_name : String) (kwargs : Dict V) :
    Except PyErr (C × Dict V) × RegState C :=
  match get_chat_model_class st provider_name with
  | (.error e, st') => (.error e, st')
  | (.ok cls?, st') =>
    match cls? with
    | none => (.error (.valueError ("Unsupported provider: " ++ provider_name)), st')
    | some chat_model_class =>
      let kw₁ : Dict V :=
        if provider_name = "bedrock" then
          match dictLookup kwargs "model" with
          | some v => dictInsert (dictRemove kwargs "model") "model_id" v
          | none => kwargs
        else kwargs
      let kw₂ : Dict V :=
        if provider_name = "vertex" then
          match dictLookup kw₁ "model" with
          | some v => dictInsert (dictRemove kw₁ "model") "model_name" v
          | none => kw₁
        else kw₁
      (.ok (chat_model_class, kw₂), st')

/-- Spec-level description of one parameter rename: if `old` is a key of
`d`, remove it and store its value under `new`; otherwise leave `d`
alone. -/
def renameKey (d : Dict V) (old new : String) : Dict V :=
  match dictLookup d old with
  | some v => dictInsert (dictRemove d old) new v
  | none => d

/-! ### Dictionary lemmas -/

theorem dictLookup_insert (d : Dict α) (k : String) (v : α) (n : String) :
    dictLookup (dictInsert d k v) n = if n = k then some v else dictLookup d n := by
  induction d with
  | nil =>
    by_cases h : n = k
    · subst h; simp [dictInsert, dictLookup]
    · simp [dictInsert, dictLookup, h, Ne.symm h]
  | cons hd tl ih =>
    obtain ⟨k', v'⟩ := hd
    by_cases hk : k' = k
    · subst hk
      by_cases hn : n = k'
      · subst hn; simp [dictInsert, dictLookup]
      · simp [dictInsert, dictLookup, hn, Ne.symm hn]
    · by_cases hn : k' = n
      · subst hn
        have hk' : ¬ k' = k := hk
        simp [dictInsert, dictLookup, hk, Ne.symm hk']
      · simp [dictInsert, dictLookup, hk, hn, ih]

theorem dictLookup_remove (d : Dict α) (k n : String) :
    dictLookup (dictRemove d k) n = if n = k then none else dictLookup d n := by
  induction d with
  | nil => simp [dictRemove, dictLookup]
  | cons hd tl ih =>
    obtain ⟨k', v'⟩ := hd
    by_cases hk : k' = k
    · subst hk
      by_cases hn : n = k'
      · subst hn; simp [dictRemove, ih]
      · simp [dictRemove, dictLookup, ih, hn, Ne.symm hn]
    · by_cases hn : k' = n
      · subst hn
        simp [dictRemove, dictLookup, hk, Ne.symm hk]
      · simp [dictRemove, dictLookup, hk, hn, ih]

theorem dictContains_iff (d : Dict α) (n : String) :
    dictContains d n = true ↔ ∃ v, dictLookup d n = some v := by
  simp [dictContains, Option.isSome_iff_exists]

theorem mem_dictKeys_iff (d : Dict α) (n : String) :
    n ∈ dictKeys d ↔ dictContains d n = true := by
  induction d with
  | nil => simp [dictKeys, dictContains, dictLookup]
  | cons hd tl ih =>
    obtain ⟨k', v'⟩ := hd
    by_cases hn : k' = n
    · subst hn; simp [dictKeys, dictContains, dictLookup]
    · simpa [dictKeys, dictContains, dictLookup, hn, Ne.symm hn] using ih

theorem mem_dictInsert (d : Dict α) (k : String) (v : α) (kv : String × α) :
    kv ∈ dictInsert d k v → kv ∈ d ∨ kv = (k, v) := by
  induction d with
  | nil =>
    intro h
    simp only [dictInsert, List.mem_singleton] at h
    exact .inr h
  | cons hd tl ih =>
    obtain ⟨k', v'⟩ := hd
    intro h
    by_cases hk : k' = k
    · rw [show dictInsert ((k', v') :: tl) k v = (k, v) :: tl by simp [dictInsert, hk]] at h
      rcases List.mem_cons.mp h with rfl | h'
      · exact .inr rfl
      · exact .inl (List.mem_cons_of_mem _ h')
    · rw [show dictInsert ((k', v') :: tl) k v = (k', v') :: dictInsert tl k v by
        simp [dictInsert, hk]] at h
      rcases List.mem_cons.mp h with rfl | h'
      · exact .inl (List.mem_cons_self _ _)
      · rcases ih h' with h'' | h''
        · exact .inl (List.mem_cons_of_mem _ h'')
        · exact .inr h''

theorem dictLookup_mem (d : Dict α) (n : String) (v : α) :
    dictLookup d n = some v → (n, v) ∈ d := by
  induction d with
  | nil => intro h; simp [dictLookup] at h
  | cons hd tl ih =>
    obtain ⟨k', v'⟩ := hd
    by_cases hk : k' = n
    · subst hk
      intro h
      simp [dictLookup] at h
      subst h
      exact List.mem_cons_self _ _
    · intro h
      simp only [dictLookup, if_neg hk] at h
      exact List.mem_cons_of_mem _ (ih h)

/-! ### Derivation-loop lemmas -/

theorem deriveLoop_append (xs ys : List (Producer C)) (d : Dict (Option C)) :
    deriveLoop (xs ++ ys) d =
      match deriveLoop xs d with
      | (d₁, none) => deriveLoop ys d₁
      | (d₁, some e) => (d₁, some e) := by
  induction xs generalizing d with
  | nil => simp [deriveLoop]
  | cons p rest ih =>
    match p with
    | .ok info => simpa [deriveLoop] using ih _
    | .error e =>
      by_cases he : e.isImport
      · simpa [deriveLoop, he] using ih _
      · simp [deriveLoop, he]

theorem deriveLoop_no_error (ps : List (Producer C)) (d : Dict (Option C))
    (h : ∀ p ∈ ps, isOkP p || isImportP p) :
    (deriveLoop ps d).2 = none := by
  induction ps generalizing d with
  | nil => simp [deriveLoop]
  | cons p rest ih =>
    have hp := h p (List.mem_cons_self _ _)
    have hrest : ∀ q ∈ rest, isOkP q || isImportP q :=
      fun q hq => h q (List.mem_cons_of_mem _ hq)
    match p with
    | .ok info => simpa [deriveLoop] using ih _ hrest
    | .error e =>
      have he : e.isImport := by simpa [isOkP, isImportP] using hp
      simpa [deriveLoop, he] using ih _ hrest

theorem deriveLoop_lookup_of_not_yields (ps : List (Producer C)) (d : Dict (Option C))
    (n : String) (h : ∀ p ∈ ps, yieldsName p n = false) :
    dictLookup (deriveLoop ps d).1 n = dictLookup d n := by
  induction ps generalizing d with
  | nil => simp [deriveLoop]
  | cons p rest ih =>
    have hp := h p (List.mem_cons_self _ _)
    have hrest : ∀ q ∈ rest, yieldsName q n = false :=
      fun q hq => h q (List.mem_cons_of_mem _ hq)
    match p with
    | .ok info =>
      have hne : ¬ (n = info.provider_name) := by
        simp only [yieldsName, decide_eq_false_iff_not] at hp
        exact fun h' => hp h'.symm
      simp only [deriveLoop]
      rw [ih _ hrest, dictLookup_insert, if_neg hne]
    | .error e =>
      by_cases he : e.isImport
      · simpa [deriveLoop, he] using ih _ hrest
      · simp [deriveLoop, he]

theorem deriveLoop_contains_mono (ps : List (Producer C)) (d : Dict (Option C))
    (n : String) (h : dictContains d n = true) :
    dictContains (deriveLoop ps d).1 n = true := by
  induction ps generalizing d with
  | nil => simpa [deriveLoop] using h
  | cons p rest ih =>
    match p with
    | .ok info =>
      have h' : dictContains (dictInsert d info.provider_name info.model_type) n = true := by
        rw [dictContains_iff] at h ⊢
        obtain ⟨v, hv⟩ := h
        rw [dictLookup_insert]
        by_cases hn : n = info.provider_name
        · exact ⟨_, by rw [if_pos hn]⟩
        · exact ⟨v, by rw [if_neg hn]; exact hv⟩
      simpa [deriveLoop] using ih _ h'
    | .error e =>
      by_cases he : e.isImport
      · simpa [deriveLoop, he] using ih _ h
      · simpa [deriveLoop, he] using h

theorem deriveLoop_contains_of_ok_mem (ps : List (Producer C)) (d : Dict (Option C))
    (info : Info C) (hmem : Except.ok info ∈ ps)
    (h : ∀ p ∈ ps, isOkP p || isImportP p) :
    dictContains (deriveLoop ps d).1 info.provider_name = true := by
  induction ps generalizing d with
  | nil => cases hmem
  | cons p rest ih =>
    have hrest : ∀ q ∈ rest, isOkP q || isImportP q :=
      fun q hq => h q (List.mem_cons_of_mem _ hq)
    rcases List.mem_cons.mp hmem with heq | hmem'
    · subst heq
      simp only [deriveLoop]
      exact deriveLoop_contains_mono _ _ _
        (by rw [dictContains_iff]; exact ⟨_, by rw [dictLookup_insert, if_pos rfl]⟩)
    · match p with
      | .ok info' => simpa [deriveLoop] using ih _ hmem' hrest
      | .error e =>
        have he : e.isImport := by
          simpa [isOkP, isImportP] using h _ (List.mem_cons_self _ _)
        simpa [deriveLoop, he] using ih _ hmem' hrest

theorem deriveLoop_keys_from_ok (ps : List (Producer C)) (d : Dict (Option C))
    (n : String) (h : dictContains (deriveLoop ps d).1 n = true) :
    dictContains d n = true ∨ ∃ info, Except.ok info ∈ ps ∧ info.provider_name = n := by
  induction ps generalizing d with
  | nil => exact .inl (by simpa [deriveLoop] using h)
  | cons p rest ih =>
    match p with
    | .ok info =>
      simp only [deriveLoop] at h
      rcases ih _ h with h' | ⟨info', hmem, hname⟩
      · rw [dictContains_iff] at h'
        obtain ⟨v, hv⟩ := h'
        rw [dictLookup_insert] at hv
        by_cases hn : n = info.provider_name
        · exact .inr ⟨info, List.mem_cons_self _ _, hn.symm⟩
        · rw [if_neg hn] at hv
          exact .inl ((dictContains_iff _ _).mpr ⟨v, hv⟩)
      · exact .inr ⟨info', List.mem_cons_of_mem _ hmem, hname⟩
    | .error e =>
      by_cases he : e.isImport
      · simp only [deriveLoop, he, if_pos] at h
        rcases ih _ h with h' | ⟨info', hmem, hname⟩
        · exact .inl h'
        · exact .inr ⟨info', List.mem_cons_of_mem _ hmem, hname⟩
      · exact .inl (by simpa [deriveLoop, he] using h)

theorem deriveLoop_values_isSome (ps : List (Producer C)) (d : Dict (Option C))
    (hps : ∀ p ∈ ps, okYieldsSome p) (hd : ∀ kv ∈ d, kv.2.isSome) :
    ∀ kv ∈ (deriveLoop ps d).1, kv.2.isSome := by
  induction ps generalizing d with
  | nil => simpa [deriveLoop] using hd
  | cons p rest ih =>
    have hrest : ∀ q ∈ rest, okYieldsSome q :=
      fun q hq => hps q (List.mem_cons_of_mem _ hq)
    match p with
    | .ok info =>
      have hinfo : info.model_type.isSome := by
        simpa [okYieldsSome] using hps _ (List.mem_cons_self _ _)
      have hd' : ∀ kv ∈ dictInsert d info.provider_name info.model_type, kv.2.isSome := by
        intro kv hkv
        rcases mem_dictInsert _ _ _ _ hkv with h' | h'
        · exact hd kv h'
        · subst h'; exact hinfo
      simpa [deriveLoop] using ih _ hrest hd'
    | .error e =>
      by_cases he : e.isImport
      · simpa [deriveLoop, he] using ih _ hrest hd
      · simpa [deriveLoop, he] using hd

theorem deriveLoop_append_ok (xs ys : List (Producer C)) (d : Dict (Option C))
    (h : (deriveLoop (xs ++ ys) d).2 = none) :
    (deriveLoop (xs ++ ys) d).1 = (deriveLoop ys (deriveLoop xs d).1).1 := by
  rw [deriveLoop_append]
  rcases hxs : deriveLoop xs d with ⟨d₁, e₁⟩
  cases e₁ with
  | none => rfl
  | some e =>
    rw [deriveLoop_append, hxs] at h
    exact Option.noConfusion h

theorem get_chat_model_class_of_derived (ps : List (Producer C)) (d : Dict (Option C))
    (n : String) (v : Option C)
    (hdl : deriveLoop ps ([] : Dict (Option C)) = (d, none))
    (hlook : dictLookup d n = some v) :
    (get_chat_model_class (freshState ps) n).1 = .ok v := by
  simp [get_chat_model_class, _get_dict, freshState, hdl, hlook]

/-! ### Claim theorems -/

/-- C8: `register` returns the producer unchanged, appends it to the end of
`_provider_info_funcs_list`, and leaves the cached `_provider_dict`
untouched (its only side effect is the append). -/
theorem register_appends_and_returns_unchanged (func : Producer C) (st : RegState C) :
    (register func st).1 = func ∧
    (register func st).2.provider_info_funcs_list = st.provider_info_funcs_list ++ [func] ∧
    (register func st).2.provider_dict = st.provider_dict :=
  ⟨rfl, rfl, rfl⟩

/-- C1: with a registry that resolves only `"openai"`, calling
`get_chat_model "nonexistent"` surfaces the raw `KeyError` of the table
lookup in `get_chat_model_class`; it does not raise the user-facing
`ValueError ("Unsupported provider: nonexistent")` that the claim (and the
repository's own test suite) demand, because the `None` guard sits after a
lookup that already raised. -/
theorem get_chat_model_unknown_raises_keyError :
    (get_chat_model (freshState [Except.ok (Info.mk "openai" (some 0))]) "nonexistent"
        ([] : Dict Nat)).1 = .error (.keyError "nonexistent") ∧
    (get_chat_model (freshState [Except.ok (Info.mk "openai" (some 0))]) "nonexistent"
        ([] : Dict Nat)).1 ≠ .error (.valueError "Unsupported provider: nonexistent") :=
  ⟨rfl, fun h => PyErr.noConfusion (Except.error.inj h)⟩

/-- C7: a provider name yielded by no registered producer is reported
unsupported by `is_supported`, and `get_chat_model_class` signals the
lookup failure (`KeyError`) instead of returning a value. -/
theorem unregistered_provider_not_supported (ps : List (Producer C)) (p : String)
    (hno : ∀ q ∈ ps, yieldsName q p = false)
    (hder : (deriveLoop ps ([] : Dict (Option C))).2 = none) :
    (is_supported (freshState ps) p).1 = .ok false ∧
    (get_chat_model_class (freshState ps) p).1 = .error (.keyError p) := by
  rcases hdl : deriveLoop ps ([] : Dict (Option C)) with ⟨d, e⟩
  have he : e = none := by rw [hdl] at hder; exact hder
  subst he
  have hlook : dictLookup d p = none := by
    have h := deriveLoop_lookup_of_not_yields ps ([] : Dict (Option C)) p hno
    rw [hdl] at h
    simpa [dictLookup] using h
  constructor
  · simp [is_supported, _get_dict, freshState, hdl, dictContains, hlook]
  · simp [get_chat_model_class, _get_dict, freshState, hdl, hlook]

/-- C7 witness: one succeeding producer named `"y"`; the name `"x"` is
unsupported and looking it up raises `KeyError("x")`. -/
theorem unregistered_provider_not_supported_witness :
    (∀ q ∈ ([Except.ok (Info.mk "y" (some 0))] : List (Producer Nat)),
        yieldsName q "x" = false) ∧
    (deriveLoop ([Except.ok (Info.mk "y" (some 0))] : List (Producer Nat)) []).2 = none ∧
    (is_supported (freshState ([Except.ok (Info.mk "y" (some 0))] : List (Producer Nat)))
        "x").1 = .ok false ∧
    (get_chat_model_class
        (freshState ([Except.ok (Info.mk "y" (some 0))] : List (Producer Nat))) "x").1
      = .error (.keyError "x") :=
  ⟨by decide, by decide,
    (unregistered_provider_not_supported _ "x" (by decide) (by decide)).1,
    (unregistered_provider_not_supported _ "x" (by decide) (by decide)).2⟩

/-- C6: when two producers both succeed with the same provider name and no
later producer yields that name again, the derived table (and hence
`get_chat_model_class`) maps the name to the class of the later-registered
producer; the earlier entry is silently overwritten. -/
theorem duplicate_name_last_wins (ps₁ ps₂ rest : List (Producer C)) (n : String)
    (c₁ c₂ : Option C)
    (hrest : ∀ q ∈ rest, yieldsName q n = false)
    (hder : (deriveLoop (ps₁ ++ Except.ok (Info.mk n c₁) :: ps₂ ++
        Except.ok (Info.mk n c₂) :: rest) ([] : Dict (Option C))).2 = none) :
    dictLookup (deriveLoop (ps₁ ++ Except.ok (Info.mk n c₁) :: ps₂ ++
        Except.ok (Info.mk n c₂) :: rest) ([] : Dict (Option C))).1 n = some c₂ ∧
    (get_chat_model_class (freshState (ps₁ ++ Except.ok (Info.mk n c₁) :: ps₂ ++
        Except.ok (Info.mk n c₂) :: rest)) n).1 = .ok c₂ := by
  have hassoc : ps₁ ++ Except.ok (Info.mk n c₁) :: ps₂ ++ Except.ok (Info.mk n c₂) :: rest
      = (ps₁ ++ Except.ok (Info.mk n c₁) :: ps₂) ++ (Except.ok (Info.mk n c₂) :: rest) := by
    simp [List.append_assoc]
  have hlook : dictLookup (deriveLoop (ps₁ ++ Except.ok (Info.mk n c₁) :: ps₂ ++
      Except.ok (Info.mk n c₂) :: rest) ([] : Dict (Option C))).1 n = some c₂ := by
    rw [hassoc, deriveLoop_append_ok _ _ _ (hassoc ▸ hder)]
    have hy := deriveLoop_lookup_of_not_yields rest
      (dictInsert (deriveLoop (ps₁ ++ Except.ok (Info.mk n c₁) :: ps₂)
        ([] : Dict (Option C))).1 n c₂) n hrest
    rw [dictLookup_insert, if_pos rfl] at hy
    exact hy
  refine ⟨hlook, ?_⟩
  rcases hdl : deriveLoop (ps₁ ++ Except.ok (Info.mk n c₁) :: ps₂ ++
      Except.ok (Info.mk n c₂) :: rest) ([] : Dict (Option C)) with ⟨d, e⟩
  have he : e = none := by rw [hdl] at hder; exact hder
  subst he
  rw [hdl] at hlook
  exact get_chat_model_class_of_derived _ d n c₂ hdl hlook

/-- C6 witness: two succeeding producers both named `"dup"`; the table maps
`"dup"` to the class of the second one. -/
theorem duplicate_name_last_wins_witness :
    (deriveLoop ([Except.ok (Info.mk "dup" (some 1)), Except.ok (Info.mk "dup" (some 2))] :
        List (Producer Nat)) []).2 = none ∧
    dictLookup (deriveLoop ([Except.ok (Info.mk "dup" (some 1)),
        Except.ok (Info.mk "dup" (some 2))] : List (Producer Nat)) []).1 "dup"
      = some (some 2) ∧
    (get_chat_model_class (freshState ([Except.ok (Info.mk "dup" (some 1)),
        Except.ok (Info.mk "dup" (some 2))] : List (Producer Nat))) "dup").1
      = .ok (some 2) :=
  ⟨by decide,
    (duplicate_name_last_wins [] [] [] "dup" (some 1) (some 2) (by decide) (by decide)).1,
    (duplicate_name_last_wins [] [] [] "dup" (some 1) (some 2) (by decide) (by decide)).2⟩

/-- C4: when every registered producer either succeeds or fails with
`ImportError`, derivation completes, `get_list` returns the key list of the
derived table, every succeeding producer's name is in that list, and every
listed name comes from some succeeding producer (import-failing producers
are skipped silently). -/
theorem import_failures_skipped (ps : List (Producer C))
    (h : ∀ p ∈ ps, isOkP p || isImportP p) :
    ∃ names, (get_list (freshState ps)).1 = .ok names ∧
      (∀ info : Info C, Except.ok info ∈ ps → info.provider_name ∈ names) ∧
      (∀ n ∈ names, ∃ info : Info C, Except.ok info ∈ ps ∧ info.provider_name = n) := by
  rcases hdl : deriveLoop ps ([] : Dict (Option C)) with ⟨d, e⟩
  have he : e = none := by
    have h' := deriveLoop_no_error ps ([] : Dict (Option C)) h
    rw [hdl] at h'
    exact h'
  subst he
  refine ⟨dictKeys d, ?_, ?_, ?_⟩
  · simp [get_list, _get_dict, freshState, hdl]
  · intro info hmem
    have h' := deriveLoop_contains_of_ok_mem ps ([] : Dict (Option C)) info hmem h
    rw [hdl] at h'
    exact (mem_dictKeys_iff _ _).mpr h'
  · intro n hn
    have hc : dictContains d n = true := (mem_dictKeys_iff _ _).mp hn
    have h' := deriveLoop_keys_from_ok ps ([] : Dict (Option C)) n (by rw [hdl]; exact hc)
    rcases h' with h' | h'
    · simp [dictContains, dictLookup] at h'
    · exact h'

/-- C4 witness: an import-failing producer registered before a succeeding
producer named `"y"`; `get_list` returns exactly `["y"]`. -/
theorem import_failures_skipped_witness :
    (∀ p ∈ ([Except.error (PyErr.importError "no module named x"),
        Except.ok (Info.mk "y" (some 0))] : List (Producer Nat)), isOkP p || isImportP p) ∧
    (get_list (freshState ([Except.error (PyErr.importError "no module named x"),
        Except.ok (Info.mk "y" (some 0))] : List (Producer Nat)))).1 = .ok ["y"] ∧
    (∃ names, (get_list (freshState ([Except.error (PyErr.importError "no module named x"),
          Except.ok (Info.mk "y" (some 0))] : List (Producer Nat)))).1 = .ok names ∧
      (∀ info : Info Nat,
        Except.ok info ∈ ([Except.error (PyErr.importError "no module named x"),
          Except.ok (Info.mk "y" (some 0))] : List (Producer Nat)) →
        info.provider_name ∈ names) ∧
      (∀ n ∈ names, ∃ info : Info Nat,
        Except.ok info ∈ ([Except.error (PyErr.importError "no module named x"),
          Except.ok (Info.mk "y" (some 0))] : List (Producer Nat)) ∧
        info.provider_name = n)) :=
  ⟨by decide, rfl, import_failures_skipped _ (by decide)⟩

theorem renameKey_lookup (d : Dict V) (old new : String) (hon : old ≠ new)
    (hc : dictContains d old = true) :
    dictLookup (renameKey d old new) old = none ∧
    dictLookup (renameKey d old new) new = dictLookup d old ∧
    ∀ k, k ≠ old → k ≠ new → dictLookup (renameKey d old new) k = dictLookup d k := by
  rcases (dictContains_iff _ _).mp hc with ⟨v, hv⟩
  refine ⟨?_, ?_, ?_⟩
  · simp [renameKey, hv, dictLookup_insert, dictLookup_remove, hon]
  · simp [renameKey, hv, dictLookup_insert]
  · intro k hko hkn
    simp [renameKey, hv, dictLookup_insert, dictLookup_remove, hko, hkn]

theorem get_chat_model_class_eq_ok (ps : List (Producer C)) (d : Dict (Option C))
    (n : String) (v : Option C)
    (hdl : deriveLoop ps ([] : Dict (Option C)) = (d, none))
    (hlook : dictLookup d n = some v) :
    get_chat_model_class (freshState ps) n
      = (.ok v, { provider_info_funcs_list := ps, provider_dict := d }) := by
  simp [get_chat_model_class, _get_dict, freshState, hdl, hlook]

theorem get_chat_model_class_eq_err (ps : List (Producer C)) (d : Dict (Option C))
    (n : String)
    (hdl : deriveLoop ps ([] : Dict (Option C)) = (d, none))
    (hlook : dictLookup d n = none) :
    get_chat_model_class (freshState ps) n
      = (.error (.keyError n), { provider_info_funcs_list := ps, provider_dict := d }) := by
  simp [get_chat_model_class, _get_dict, freshState, hdl, hlook]

theorem get_chat_model_of_class_some (st st' : RegState C) (name : String) (kwargs : Dict V)
    (cls : C) (hgcc : get_chat_model_class st name = (.ok (some cls), st')) :
    (get_chat_model st name kwargs).1 = Except.ok (cls,
      (if name = "bedrock" then renameKey kwargs "model" "model_id"
       else if name = "vertex" then renameKey kwargs "model" "model_name"
       else kwargs)) := by
  simp only [get_chat_model, hgcc]
  by_cases hb : name = "bedrock"
  · subst hb
    simp [renameKey]
  · by_cases hv : name = "vertex"
    · subst hv
      simp [renameKey, hb]
    · simp [renameKey, hb, hv]

theorem get_chat_model_kw_shape (st : RegState C) (name : String) (kwargs : Dict V)
    (cls : C) (kw : Dict V) (h : (get_chat_model st name kwargs).1 = .ok (cls, kw)) :
    kw = (if name = "bedrock" then renameKey kwargs "model" "model_id"
          else if name = "vertex" then renameKey kwargs "model" "model_name"
          else kwargs) := by
  rcases hgcc : get_chat_model_class st name with ⟨res, st'⟩
  cases res with
  | error e =>
    rw [show (get_chat_model st name kwargs).1 = .error e by simp [get_chat_model, hgcc]] at h
    exact Except.noConfusion h
  | ok cls? =>
    cases cls? with
    | none =>
      rw [show (get_chat_model st name kwargs).1
          = .error (.valueError ("Unsupported provider: " ++ name)) by
        simp [get_chat_model, hgcc]] at h
      exact Except.noConfusion h
    | some c =>
      rw [get_chat_model_of_class_some st st' name kwargs c hgcc] at h
      exact (congrArg Prod.snd (Except.ok.inj h)).symm

/-- C9: with producers that only succeed or fail by `ImportError`, and
every succeeding producer carrying an actual class (not `None`), the
`is None` guard in `get_chat_model` is unreachable: the call either fails
with the `KeyError` from `get_chat_model_class` or reaches construction,
and never raises the `Unsupported provider` `ValueError`. -/
theorem unsupported_branch_unreachable (ps : List (Producer C))
    (h₁ : ∀ p ∈ ps, isOkP p || isImportP p)
    (h₂ : ∀ p ∈ ps, okYieldsSome p)
    (name : String) (kwargs : Dict V) :
    ((get_chat_model (freshState ps) name kwargs).1 = .error (.keyError name) ∨
      ∃ r, (get_chat_model (freshState ps) name kwargs).1 = .ok r) ∧
    ∀ msg, (get_chat_model (freshState ps) name kwargs).1 ≠ .error (.valueError msg) := by
  rcases hdl : deriveLoop ps ([] : Dict (Option C)) with ⟨d, e⟩
  have he : e = none := by
    have h' := deriveLoop_no_error ps ([] : Dict (Option C)) h₁
    rw [hdl] at h'; exact h'
  subst he
  have hvals : ∀ kv ∈ d, kv.2.isSome := by
    have h' := deriveLoop_values_isSome ps ([] : Dict (Option C)) h₂
      (by intro kv hkv; cases hkv)
    rw [hdl] at h'; exact h'
  have hmain : (get_chat_model (freshState ps) name kwargs).1 = .error (.keyError name) ∨
      ∃ r, (get_chat_model (freshState ps) name kwargs).1 = .ok r := by
    rcases hlk : dictLookup d name with _ | v
    · left
      simp [get_chat_model, get_chat_model_class_eq_err ps d name hdl hlk]
    · have hv : v.isSome := hvals (name, v) (dictLookup_mem _ _ _ hlk)
      rcases v with _ | cls
      · simp at hv
      · right
        exact ⟨_, get_chat_model_of_class_some (freshState ps) _ name kwargs cls
          (get_chat_model_class_eq_ok ps d name (some cls) hdl hlk)⟩
  refine ⟨hmain, ?_⟩
  intro msg hmsg
  rcases hmain with heq | ⟨r, heq⟩
  · rw [heq] at hmsg
    exact PyErr.noConfusion (Except.error.inj hmsg)
  · rw [heq] at hmsg
    exact Except.noConfusion hmsg

/-- C9 witness: a single succeeding producer named `"y"`; querying `"y"`
reaches construction and querying never raises the `ValueError`. -/
theorem unsupported_branch_unreachable_witness :
    (∀ p ∈ ([Except.ok (Info.mk "y" (some 0))] : List (Producer Nat)), isOkP p || isImportP p) ∧
    (∀ p ∈ ([Except.ok (Info.mk "y" (some 0))] : List (Producer Nat)), okYieldsSome p) ∧
    (((get_chat_model (freshState ([Except.ok (Info.mk "y" (some 0))] : List (Producer Nat)))
        "y" ([] : Dict Nat)).1 = .error (.keyError "y") ∨
      ∃ r, (get_chat_model (freshState ([Except.ok (Info.mk "y" (some 0))] :
        List (Producer Nat))) "y" ([] : Dict Nat)).1 = .ok r) ∧
    ∀ msg, (get_chat_model (freshState ([Except.ok (Info.mk "y" (some 0))] :
        List (Producer Nat))) "y" ([] : Dict Nat)).1 ≠ .error (.valueError msg)) :=
  ⟨by decide, by decide,
    unsupported_branch_unreachable _ (by decide) (by decide) "y" ([] : Dict Nat)⟩

/-- C3: a successful `get_chat_model` call passes the configuration to the
constructor with exactly the bedrock `model → model_id` and vertex
`model → model_name` renames applied: for those providers the `model` key
is gone, its value moved to the target key, all other keys unchanged; any
other provider's configuration reaches the constructor unmodified. -/
theorem kwarg_renames (st : RegState C) (name : String) (kwargs : Dict V)
    (cls : C) (kw : Dict V)
    (h : (get_chat_model st name kwargs).1 = .ok (cls, kw)) :
    kw = (if name = "bedrock" then renameKey kwargs "model" "model_id"
          else if name = "vertex" then renameKey kwargs "model" "model_name"
          else kwargs) ∧
    (name ≠ "bedrock" → name ≠ "vertex" → kw = kwargs) ∧
    (name = "bedrock" → dictContains kwargs "model" = true →
      dictLookup kw "model" = none ∧
      dictLookup kw "model_id" = dictLookup kwargs "model" ∧
      ∀ k, k ≠ "model" → k ≠ "model_id" → dictLookup kw k = dictLookup kwargs k) ∧
    (name = "vertex" → dictContains kwargs "model" = true →
      dictLookup kw "model" = none ∧
      dictLookup kw "model_name" = dictLookup kwargs "model" ∧
      ∀ k, k ≠ "model" → k ≠ "model_name" → dictLookup kw k = dictLookup kwargs k) := by
  have hkw := get_chat_model_kw_shape st name kwargs cls kw h
  refine ⟨hkw, ?_, ?_, ?_⟩
  · intro hb hv
    rw [if_neg hb, if_neg hv] at hkw
    exact hkw
  · intro hb hc
    subst hb
    rw [if_pos rfl] at hkw
    rw [hkw]
    exact renameKey_lookup kwargs "model" "model_id" (by decide) hc
  · intro hv hc
    subst hv
    rw [if_neg (by decide), if_pos rfl] at hkw
    rw [hkw]
    exact renameKey_lookup kwargs "model" "model_name" (by decide) hc

/-- C3 witness: bedrock with `{model: 1, other: 2}` constructs with
`{other: 2, model_id: 1}` — `model` gone, its value under `model_id`,
`other` untouched. -/
theorem kwarg_renames_witness :
    (get_chat_model (⟨[], [("bedrock", some 0)]⟩ : RegState Nat) "bedrock"
        ([("model", 1), ("other", 2)] : Dict Nat)).1
      = .ok (0, [("other", 2), ("model_id", 1)]) ∧
    dictLookup ([("other", 2), ("model_id", 1)] : Dict Nat) "model" = none ∧
    dictLookup ([("other", 2), ("model_id", 1)] : Dict Nat) "model_id"
      = dictLookup ([("model", 1), ("other", 2)] : Dict Nat) "model" :=
  ⟨rfl,
    ((kwarg_renames (⟨[], [("bedrock", some 0)]⟩ : RegState Nat) "bedrock"
        ([("model", 1), ("other", 2)] : Dict Nat) 0
        ([("other", 2), ("model_id", 1)] : Dict Nat) rfl).2.2.1 rfl rfl).1,
    ((kwarg_renames (⟨[], [("bedrock", some 0)]⟩ : RegState Nat) "bedrock"
        ([("model", 1), ("other", 2)] : Dict Nat) 0
        ([("other", 2), ("model_id", 1)] : Dict Nat) rfl).2.2.1 rfl rfl).2.1⟩

/-- C10: when the configuration already holds both `model` and the
provider's target key, the rename silently overwrites the target key with
the value of `model`: after a successful bedrock call `model_id` holds the
`model` value (the caller-supplied `model_id` value is lost), and likewise
`model_name` for vertex; `model` itself is gone. -/
theorem rename_overwrites_existing_target (st : RegState C) (kwargs : Dict V)
    (m : V) (hm : dictLookup kwargs "model" = some m) :
    (∀ x, dictLookup kwargs "model_id" = some x →
      ∀ cls kw, (get_chat_model st "bedrock" kwargs).1 = .ok (cls, kw) →
        dictLookup kw "model_id" = some m ∧ dictLookup kw "model" = none) ∧
    (∀ x, dictLookup kwargs "model_name" = some x →
      ∀ cls kw, (get_chat_model st "vertex" kwargs).1 = .ok (cls, kw) →
        dictLookup kw "model_name" = some m ∧ dictLookup kw "model" = none) := by
  have hc : dictContains kwargs "model" = true := by
    simp [dictContains, hm]
  constructor
  · intro x hx cls kw h
    have hkw := get_chat_model_kw_shape st "bedrock" kwargs cls kw h
    rw [if_pos rfl] at hkw
    have hr := renameKey_lookup kwargs "model" "model_id" (by decide) hc
    rw [hkw]
    exact ⟨hr.2.1.trans hm, hr.1⟩
  · intro x hx cls kw h
    have hkw := get_chat_model_kw_shape st "vertex" kwargs cls kw h
    rw [if_neg (by decide), if_pos rfl] at hkw
    have hr := renameKey_lookup kwargs "model" "model_name" (by decide) hc
    rw [hkw]
    exact ⟨hr.2.1.trans hm, hr.1⟩

/-- C10 witness: `{model: 1, model_id: 2, model_name: 3}` — bedrock ends
with `model_id = 1` (the caller's `2` is lost) and vertex ends with
`model_name = 1` (the caller's `3` is lost). -/
theorem rename_overwrites_existing_target_witness :
    dictLookup ([("model", 1), ("model_id", 2), ("model_name", 3)] : Dict Nat) "model"
      = some 1 ∧
    (dictLookup ([("model_id", 1), ("model_name", 3)] : Dict Nat) "model_id" = some 1 ∧
      dictLookup ([("model_id", 1), ("model_name", 3)] : Dict Nat) "model" = none) ∧
    (dictLookup ([("model_id", 2), ("model_name", 1)] : Dict Nat) "model_name" = some 1 ∧
      dictLookup ([("model_id", 2), ("model_name", 1)] : Dict Nat) "model" = none) :=
  ⟨rfl,
    (rename_overwrites_existing_target
        (⟨[], [("bedrock", some 0), ("vertex", some 1)]⟩ : RegState Nat)
        ([("model", 1), ("model_id", 2), ("model_name", 3)] : Dict Nat) 1 rfl).1
      2 rfl 0 ([("model_id", 1), ("model_name", 3)] : Dict Nat) rfl,
    (rename_overwrites_existing_target
        (⟨[], [("bedrock", some 0), ("vertex", some 1)]⟩ : RegState Nat)
        ([("model", 1), ("model_id", 2), ("model_name", 3)] : Dict Nat) 1 rfl).2
      3 rfl 1 ([("model_id", 2), ("model_name", 1)] : Dict Nat) rfl⟩

/-- C5: when the cached table is non-empty every query answers from it —
`_get_dict` returns the cache unchanged whatever the producer list is, so
no producer is invoked — while an empty cache is indistinguishable from
"not yet derived": if derivation yields an empty table with no error,
`_get_dict` returns the state unchanged, so the next query derives again. -/
theorem memoized_on_nonempty (st : RegState C) (n : String) :
    (st.provider_dict ≠ [] →
      (∀ ps' : List (Producer C),
        _get_dict (⟨ps', st.provider_dict⟩ : RegState C)
          = (.ok st.provider_dict, (⟨ps', st.provider_dict⟩ : RegState C))) ∧
      is_supported st n = (.ok (dictContains st.provider_dict n), st) ∧
      get_list st = (.ok (dictKeys st.provider_dict), st) ∧
      get_chat_model_class st n
        = (match dictLookup st.provider_dict n with
           | some v => (.ok v, st)
           | none => (.error (.keyError n), st))) ∧
    (st.provider_dict = [] →
      deriveLoop st.provider_info_funcs_list ([] : Dict (Option C)) = ([], none) →
      _get_dict st = (.ok [], st)) := by
  obtain ⟨l, dct⟩ := st
  constructor
  · intro hne
    match dct, hne with
    | x :: xs, _ =>
      refine ⟨fun ps' => rfl, rfl, rfl, ?_⟩
      rcases hl : dictLookup (x :: xs) n with _ | v <;>
        simp [get_chat_model_class, _get_dict, hl]
  · intro hd hderiv
    subst hd
    simp [_get_dict, hderiv]

/-- C5 witness: with `{a ↦ 0}` cached, queries answer from the cache for
any producer list; with an empty cache and no producers, `_get_dict`
returns the state unchanged, so emptiness still looks underived. -/
theorem memoized_on_nonempty_witness :
    is_supported (⟨[Except.error (PyErr.valueError "boom")], [("a", some 0)]⟩ :
        RegState Nat) "a"
      = (.ok true, (⟨[Except.error (PyErr.valueError "boom")], [("a", some 0)]⟩ :
        RegState Nat)) ∧
    _get_dict (freshState ([] : List (Producer Nat)))
      = (.ok [], freshState ([] : List (Producer Nat))) :=
  ⟨((memoized_on_nonempty (⟨[Except.error (PyErr.valueError "boom")], [("a", some 0)]⟩ :
        RegState Nat) "a").1 (by decide)).2.1,
    (memoized_on_nonempty (freshState ([] : List (Producer Nat))) "a").2 rfl rfl⟩

/-- C2 counterexample: a succeeding producer `"a"` registered before a
producer failing with `ValueError "boom"`.  The first `_get_dict` raises,
but the cached table is NOT empty — it retains the `"a"` entry — and the
next query returns that partial table with no error, so derivation is not
re-attempted, contradicting the claim. -/
theorem derivation_abort_counterexample :
    (_get_dict (freshState ([Except.ok (Info.mk "a" (some 0)),
        Except.error (PyErr.valueError "boom")] : List (Producer Nat)))).1
      = .error (.valueError "boom") ∧
    (_get_dict (freshState ([Except.ok (Info.mk "a" (some 0)),
        Except.error (PyErr.valueError "boom")] : List (Producer Nat)))).2.provider_dict
      = [("a", some 0)] ∧
    (_get_dict (freshState ([Except.ok (Info.mk "a" (some 0)),
        Except.error (PyErr.valueError "boom")] : List (Producer Nat)))).2.provider_dict
      ≠ [] ∧
    _get_dict (_get_dict (freshState ([Except.ok (Info.mk "a" (some 0)),
        Except.error (PyErr.valueError "boom")] : List (Producer Nat)))).2
      = (.ok [("a", some 0)],
         (_get_dict (freshState ([Except.ok (Info.mk "a" (some 0)),
           Except.error (PyErr.valueError "boom")] : List (Producer Nat)))).2) :=
  ⟨rfl, rfl, by decide, rfl⟩

/-- C2 (amended): a non-`ImportError` producer failure propagates
uncaught and aborts derivation, but the entries already inserted by
earlier producers remain cached; if that partial table is non-empty,
future queries return it without re-running any producer, and only if it
is empty does the next query re-attempt the derivation and hit the same
error. -/
theorem derivation_abort_keeps_earlier_entries (ps₁ ps₂ : List (Producer C)) (e : PyErr)
    (h₁ : ∀ p ∈ ps₁, isOkP p || isImportP p) (he : e.isImport = false) :
    _get_dict (freshState (ps₁ ++ Except.error e :: ps₂))
      = (.error e,
         (⟨ps₁ ++ Except.error e :: ps₂,
           (deriveLoop ps₁ ([] : Dict (Option C))).1⟩ : RegState C)) ∧
    ((deriveLoop ps₁ ([] : Dict (Option C))).1 ≠ [] →
      _get_dict (⟨ps₁ ++ Except.error e :: ps₂,
          (deriveLoop ps₁ ([] : Dict (Option C))).1⟩ : RegState C)
        = (.ok (deriveLoop ps₁ ([] : Dict (Option C))).1,
           (⟨ps₁ ++ Except.error e :: ps₂,
             (deriveLoop ps₁ ([] : Dict (Option C))).1⟩ : RegState C))) ∧
    ((deriveLoop ps₁ ([] : Dict (Option C))).1 = [] →
      (_get_dict (⟨ps₁ ++ Except.error e :: ps₂,
          (deriveLoop ps₁ ([] : Dict (Option C))).1⟩ : RegState C)).1 = .error e) := by
  rcases hdl : deriveLoop ps₁ ([] : Dict (Option C)) with ⟨d₁, e₁⟩
  have he₁ : e₁ = none := by
    have h' := deriveLoop_no_error ps₁ ([] : Dict (Option C)) h₁
    rw [hdl] at h'; exact h'
  subst he₁
  have hfull : deriveLoop (ps₁ ++ Except.error e :: ps₂) ([] : Dict (Option C))
      = (d₁, some e) := by
    rw [deriveLoop_append, hdl]
    simp [deriveLoop, he]
  refine ⟨?_, ?_, ?_⟩
  · simp [_get_dict, freshState, hfull, hdl]
  · intro hne
    simp only [hdl] at hne ⊢
    match d₁, hne with
    | x :: xs, _ => rfl
  · intro h0
    simp only [hdl] at h0 ⊢
    rw [h0]
    simp [_get_dict, hfull]

/-- C2 witness for the amended claim: one succeeding producer `"a"`, then
a producer failing with `ValueError "boom"` — the error propagates and the
`"a"` entry stays cached. -/
theorem derivation_abort_keeps_earlier_entries_witness :
    (∀ p ∈ ([Except.ok (Info.mk "a" (some 0))] : List (Producer Nat)),
      isOkP p || isImportP p) ∧
    (PyErr.valueError "boom").isImport = false ∧
    _get_dict (freshState ([Except.ok (Info.mk "a" (some 0)),
        Except.error (PyErr.valueError "boom")] : List (Producer Nat)))
      = (.error (.valueError "boom"),
         (⟨[Except.ok (Info.mk "a" (some 0)), Except.error (PyErr.valueError "boom")],
           (deriveLoop ([Except.ok (Info.mk "a" (some 0))] : List (Producer Nat)) []).1⟩ :
          RegState Nat)) :=
  ⟨by decide, rfl,
    (derivation_abort_keeps_earlier_entries [Except.ok (Info.mk "a" (some 0))] []
      (PyErr.valueError "boom") (by decide) rfl).1⟩

end Langchaingang
